import Mathlib

/-
Verification of the combiner repository (Jesalx/combiner).

The repository contains two file-combining pipelines:
  * a sequential one in src/lib.rs (combine_files, process_file, get_bpe),
    walking with the ignore crate and excluding the output file by path
    comparison, and
  * a parallel one driven by src/main.rs (process_files, process_file,
    should_ignore, should_include, is_text_file in src/file_processing.rs),
    walking with walkdir, filtering by admission predicates and excluding the
    output file only through an ignore glob pattern built from its path string.

This file gives a shallow embedding of both pipelines.  The filesystem is
modelled as the list of entries the walker yields (each with its read result
and metadata result), byte-pair encoders as abstract encoding functions, and
the output file as a string buffer.  Wall-clock time and the thread pool are
not modelled; the rayon fan-out preserves per-file results, so the parallel
map is modelled as an in-order traversal (order-independence of the
aggregates is proved explicitly where claimed).
-/

namespace Combiner

/-! ## Glob patterns (the glob crate, as used by file_processing.rs)

`should_ignore` and `should_include` call `glob::Pattern::new` and
`Pattern::matches`, which uses the default match options
(case_sensitive = true, require_literal_separator = false,
require_literal_leading_dot = false).  The branches guarded by the two
disabled options are dropped below; on this platform the path separator
test is simply equality with the slash character.  The Rust matcher
recurses on (remaining pattern, remaining path) with a lexicographic
decrease; the embedding makes termination explicit with a fuel argument
large enough to cover every chain of recursive calls, and the wrapper
supplies such a fuel, so the fallback branch is unreachable. -/

inductive CharSpecifier where
  | singleChar (c : Char)
  | charRange (lo hi : Char)
deriving DecidableEq, Repr

inductive GlobToken where
  | char (c : Char)
  | anyChar
  | anySequence
  | anyRecursiveSequence
  | anyWithin (specs : List CharSpecifier)
  | anyExcept (specs : List CharSpecifier)
deriving DecidableEq, Repr

inductive MatchResult where
  | isMatch
  | subPatternDoesntMatch
  | entirePatternDoesntMatch
deriving DecidableEq, Repr

/-- glob::parse_char_specifiers: a dash between two characters forms a
range, every other character stands for itself. -/
def parseCharSpecifiers : List Char → List CharSpecifier
  | a :: '-' :: b :: rest => CharSpecifier.charRange a b :: parseCharSpecifiers rest
  | a :: rest => CharSpecifier.singleChar a :: parseCharSpecifiers rest
  | [] => []

/-- glob::in_char_specifiers with case_sensitive = true (the default used by
Pattern::matches), so the ASCII case-folding branch is disabled. -/
def inCharSpecifiers (specs : List CharSpecifier) (c : Char) : Bool :=
  specs.any fun s =>
    match s with
    | CharSpecifier.singleChar sc => c == sc
    | CharSpecifier.charRange lo hi => decide (lo ≤ c) && decide (c ≤ hi)

/-- Splits a character list at the first closing bracket, returning the part
before it and the part after it (glob::Pattern::new scans for the closing
bracket of a character class this way). -/
def splitAtRBracket : List Char → Option (List Char × List Char)
  | [] => none
  | ']' :: rest => some ([], rest)
  | c :: rest =>
    match splitAtRBracket rest with
    | some (pre, post) => some (c :: pre, post)
    | none => none

/-- glob::Pattern::new, tokenizing a pattern string.  `none` models
Pattern::new returning a PatternError (more than two consecutive stars, a
recursive wildcard that is not a full path component, or a malformed
character class).  `followsSep` records whether the previous character was a
path separator (or the start of the pattern), which gates the recursive
wildcard; `acc` holds the tokens already produced, in reverse, so that the
collapse test for consecutive recursive wildcards can look at the last token.
Each step consumes at least one character, so a fuel of one more than the
pattern length suffices. -/
def globNewLoop (fuel : Nat) (followsSep : Bool) (acc : List GlobToken) (cs : List Char) :
    Option (List GlobToken) :=
  match fuel with
  | 0 => none
  | fuel + 1 =>
    match cs with
    | [] => some acc.reverse
    | '?' :: rest => globNewLoop fuel false (GlobToken.anyChar :: acc) rest
    | '*' :: '*' :: '*' :: _ => none
    | '*' :: '*' :: rest =>
      if followsSep then
        -- `**` must be an entire path component; collapse a run of
        -- recursive wildcards into one token as Pattern::new does
        let push := !(decide (acc.length > 1) && acc.head? == some GlobToken.anyRecursiveSequence)
        let acc' := if push then GlobToken.anyRecursiveSequence :: acc else acc
        match rest with
        | [] => some acc'.reverse
        | '/' :: rest' => globNewLoop fuel true acc' rest'
        | _ => none
      else none
    | '*' :: rest => globNewLoop fuel false (GlobToken.anySequence :: acc) rest
    | '[' :: '!' :: x :: y :: rest3 =>
      match splitAtRBracket (y :: rest3) with
      | some (pre, post) =>
        globNewLoop fuel false (GlobToken.anyExcept (parseCharSpecifiers (x :: pre)) :: acc) post
      | none => none
    | '[' :: x :: y :: rest3 =>
      if x == '!' then none
      else
        match splitAtRBracket (y :: rest3) with
        | some (pre, post) =>
          globNewLoop fuel false (GlobToken.anyWithin (parseCharSpecifiers (x :: pre)) :: acc) post
        | none => none
    | '[' :: _ => none
    | c :: rest => globNewLoop fuel (c == '/') (GlobToken.char c :: acc) rest

/-- glob::Pattern::new on a pattern string; `none` is the error case. -/
def globNew (pattern : String) : Option (List GlobToken) :=
  globNewLoop (pattern.length + 1) true [] pattern.data

/-- glob::Pattern::matches_from with the default match options.  The
`inStarLoop` flag models being inside the while-let loop of the wildcard arm
(true means the head token is the wildcard currently being expanded); `fs`
is the follows_separator state.  Every recursive call decreases the
lexicographic measure (path length, token count, flag), so the fuel supplied
by `globMatchTokens` covers all chains and the fuel-exhausted branch is
unreachable. -/
def globMatchFrom (fuel : Nat) (inStarLoop fs : Bool) (tokens : List GlobToken)
    (file : List Char) : MatchResult :=
  match fuel with
  | 0 => MatchResult.subPatternDoesntMatch
  | fuel + 1 =>
    match inStarLoop, tokens with
    | true, tok :: rest =>
      -- inside the while-let loop of the AnySequence / AnyRecursiveSequence arm
      (match file with
       | [] =>
         -- the loop drained the path: continue with the tokens after the wildcard
         globMatchFrom fuel false fs rest []
       | c :: file' =>
         let fs' := c == '/'
         if tok == GlobToken.anyRecursiveSequence && !fs' then
           -- a recursive wildcard only tries submatches at separators
           globMatchFrom fuel true fs' tokens file'
         else
           match globMatchFrom fuel false fs' rest file' with
           | MatchResult.subPatternDoesntMatch => globMatchFrom fuel true fs' tokens file'
           | m => m)
    | true, [] => MatchResult.subPatternDoesntMatch
    | false, [] => if file.isEmpty then MatchResult.isMatch else MatchResult.subPatternDoesntMatch
    | false, tok :: rest =>
      match tok with
      | GlobToken.anySequence =>
        -- first try the empty expansion, then enter the loop
        (match globMatchFrom fuel false fs rest file with
         | MatchResult.subPatternDoesntMatch => globMatchFrom fuel true fs tokens file
         | m => m)
      | GlobToken.anyRecursiveSequence =>
        (match globMatchFrom fuel false fs rest file with
         | MatchResult.subPatternDoesntMatch => globMatchFrom fuel true fs tokens file
         | m => m)
      | _ =>
        match file with
        | [] => MatchResult.entirePatternDoesntMatch
        | c :: file' =>
          let ok :=
            match tok with
            | GlobToken.anyChar => true
            | GlobToken.anyWithin specs => inCharSpecifiers specs c
            | GlobToken.anyExcept specs => !inCharSpecifiers specs c
            | GlobToken.char c2 => c == c2
            | _ => false
          if ok then globMatchFrom fuel false (c == '/') rest file'
          else MatchResult.subPatternDoesntMatch

/-- glob::Pattern::matches on tokenized patterns: initial follows_separator
is true and the whole path must be consumed. -/
def globMatchTokens (tokens : List GlobToken) (s : String) : Bool :=
  globMatchFrom (2 * (s.length + 1) * (tokens.length + 1) + 1) false true tokens s.data
    == MatchResult.isMatch

/-- One ignore or include test as written in should_ignore / should_include:
Pattern::new(pattern).map(|glob| glob.matches(path)).unwrap_or(false), so a
pattern that fails to compile is treated as non-matching. -/
def pattern_matches (pattern path : String) : Bool :=
  match globNew pattern with
  | some tokens => globMatchTokens tokens path
  | none => false

/-! ## Byte-pair encoders

tiktoken_rs exposes encoders with two relevant methods:
encode_with_special_tokens (used by the sequential process_file in lib.rs)
and encode_ordinary (used by the parallel process_file in
file_processing.rs).  The concrete vocabularies are external data files, so
an encoder is modelled as the pair of encoding functions; every theorem
below holds for an arbitrary encoder. -/

structure CoreBPE where
  encode_ordinary : String → List Nat
  encode_with_special_tokens : String → List Nat

/-- A concrete encoder used for evaluating the pipelines on explicit inputs:
one token per character. -/
def charTokens : CoreBPE :=
  { encode_ordinary := fun s => s.data.map Char.toNat
    encode_with_special_tokens := fun s => s.data.map Char.toNat }

/-! ## Tokenizer selection (src/tokenizer.rs and src/lib.rs, get_bpe)

get_bpe dispatches on the scheme name and falls back to cl100k_base for any
unrecognized name.  Loading a vocabulary is modelled away (the expect calls
concern vocabulary construction, not the name dispatch), so get_bpe returns
which of the five fixed schemes is selected. -/

inductive TokenizerScheme where
  | o200k_base
  | cl100k_base
  | p50k_base
  | p50k_edit
  | r50k_base
deriving DecidableEq, Repr

def get_bpe (tokenizer : String) : TokenizerScheme :=
  if tokenizer = "o200k_base" then TokenizerScheme.o200k_base
  else if tokenizer = "cl100k_base" then TokenizerScheme.cl100k_base
  else if tokenizer = "p50k_base" then TokenizerScheme.p50k_base
  else if tokenizer = "p50k_edit" then TokenizerScheme.p50k_edit
  else if tokenizer = "r50k_base" then TokenizerScheme.r50k_base
  else TokenizerScheme.cl100k_base

/-- The five scheme names recognized by get_bpe. -/
def recognizedTokenizers : List String :=
  ["o200k_base", "cl100k_base", "p50k_base", "p50k_edit", "r50k_base"]

/-! ## Admission predicates (src/file_processing.rs) -/

/-- The last path component, as Path::file_name produces it for ordinary
file paths (everything after the final slash). -/
def fileNameChars (path : List Char) : List Char :=
  path.foldl (fun acc c => if c = '/' then [] else acc ++ [c]) []

/-- The characters after the last dot of a component, where a dot at the
very first position does not count (Path::extension ignores a leading dot,
so dotfiles have no extension). -/
def afterLastDot : List Char → Option (List Char)
  | [] => none
  | c :: rest =>
    match afterLastDot rest with
    | some e => some e
    | none => if c = '.' then some rest else none

/-- Path::extension on the file name: split the final component at its last
dot, skipping a dot in the leading position. -/
def extensionOf (path : String) : Option String :=
  match fileNameChars path.data with
  | [] => none
  | _ :: rest =>
    match afterLastDot rest with
    | some e => some (String.mk e)
    | none => none

/-- The fixed allow-list of text-like extensions in is_text_file. -/
def textExtensions : List String :=
  ["txt", "md", "rs", "toml", "json", "yaml", "yml", "py", "js", "ts",
   "html", "css", "sh", "bash", "xml", "svg", "cpp", "c", "h", "hpp"]

/-- file_processing.rs is_text_file: the extension must be in the fixed
allow-list; a path with no extension is rejected. -/
def is_text_file (path : String) : Bool :=
  match extensionOf path with
  | some ext => textExtensions.contains ext
  | none => false

/-- file_processing.rs should_ignore: some ignore pattern glob-matches the
full path string (a pattern that fails to compile matches nothing). -/
def should_ignore (path : String) (ignore_patterns : List String) : Bool :=
  ignore_patterns.any fun pattern => pattern_matches pattern path

/-- file_processing.rs should_include: an empty include list admits
everything, otherwise some include pattern must glob-match the path. -/
def should_include (path : String) (include_patterns : List String) : Bool :=
  if include_patterns.isEmpty then true
  else include_patterns.any fun pattern => pattern_matches pattern path

/-! ## The parallel pipeline (src/file_processing.rs process_files)

A walkdir entry is modelled with its path, its file-type test, and the
outcomes the filesystem would give for fs::read_to_string and
fs::metadata(..).len().  The walk itself is the list of Result values the
WalkDir iterator yields. -/

structure DirEntry where
  path : String
  is_file : Bool
  read : Except String String
  metadata_len : Except String Nat
deriving Repr

/-- The filter closure applied to each walk entry in process_files. -/
def admission (ignore_patterns include_patterns : List String) (e : DirEntry) : Bool :=
  e.is_file && is_text_file e.path && !should_ignore e.path ignore_patterns &&
    should_include e.path include_patterns

/-- The files that survive filter_map(Result::ok) and the admission filter. -/
def admittedFiles (ignore_patterns include_patterns : List String)
    (walk : List (Except String DirEntry)) : List DirEntry :=
  (walk.filterMap fun r => r.toOption).filter (admission ignore_patterns include_patterns)

/-- The header line written for one record: writeln!(output, "File: {:?}", path).
The Debug formatting of a path quotes it (escape sequences for exotic
characters are not modelled). -/
def headerLine (path : String) : String :=
  "File: " ++ "\"" ++ path ++ "\"" ++ "\n"

/-- The separator line written around one record: "-".repeat(80) and a
newline. -/
def dashLine : String :=
  String.mk (List.replicate 80 '-') ++ "\n"

/-- file_processing.rs process_file: under the output lock, write the header
line and a separator line, then read the file; on success append the raw
content, a closing separator, encode the content with encode_ordinary and
read the byte length from metadata.  The value is (token count, byte size)
or the displayed CombinerError, paired with the state of the shared output
buffer afterwards. -/
def process_file_par (bpe : CoreBPE) (e : DirEntry) (output : String) :
    Except String (Nat × Nat) × String :=
  let output := output ++ headerLine e.path ++ dashLine
  match e.read with
  | Except.error _ => (Except.error ("Failed to process file: " ++ e.path), output)
  | Except.ok content =>
    let output := output ++ content ++ dashLine
    match e.metadata_len with
    | Except.error msg => (Except.error ("IO error: " ++ msg), output)
    | Except.ok n => (Except.ok ((bpe.encode_ordinary content).length, n), output)

/-- The per-file map of process_files, threading the shared output buffer
and collecting one Result per admitted file (Ok carries (path, tokens,
size); Err carries (path, error message)). -/
def runFiles (bpe : CoreBPE) (output : String) :
    List DirEntry → String × List (Except (String × String) (String × Nat × Nat))
  | [] => (output, [])
  | e :: rest =>
    let r := process_file_par bpe e output
    let entry :=
      match r.1 with
      | Except.ok (tokens, size) => Except.ok (e.path, tokens, size)
      | Except.error msg => Except.error (e.path, msg)
    let tail := runFiles bpe r.2 rest
    (tail.1, entry :: tail.2)

/-- The Ok side of one per-file Result (partition keeps these as
file_stats). -/
def okRecord : Except (String × String) (String × Nat × Nat) → Option (String × Nat × Nat)
  | Except.ok v => some v
  | Except.error _ => none

/-- The Err side of one per-file Result (partition keeps these as
skipped_files). -/
def errRecord : Except (String × String) (String × Nat × Nat) → Option (String × String)
  | Except.ok _ => none
  | Except.error v => some v

structure ProcessingResult where
  files_processed : Nat
  total_tokens : Nat
  file_stats : List (String × Nat × Nat)
  skipped_files : List (String × String)
deriving DecidableEq, Repr

/-- file_processing.rs process_files: admit files from the walk, process
each, partition the Results into file_stats and skipped_files, and report
files_processed and total_tokens from the successful records.  The second
component is the final content of the output file. -/
def process_files (bpe : CoreBPE) (ignore_patterns include_patterns : List String)
    (walk : List (Except String DirEntry)) : ProcessingResult × String :=
  let files := admittedFiles ignore_patterns include_patterns walk
  let run := runFiles bpe "" files
  let file_stats := run.2.filterMap okRecord
  let skipped_files := run.2.filterMap errRecord
  ({ files_processed := file_stats.length
     total_tokens := (file_stats.map fun v => v.2.1).sum
     file_stats := file_stats
     skipped_files := skipped_files }, run.1)

/-! ## Statistics (src/statistics.rs and src/lib.rs) -/

structure Statistics where
  files_processed : Nat
  files_skipped : Nat
  directories_visited : Nat
  total_tokens : Nat
  max_tokens : Nat
  max_tokens_file : String
  output_file : String
deriving DecidableEq, Repr

/-- Statistics::new: zeroed counters, directories_visited seeded to 1 for
the root. -/
def Statistics.new (output_file : String) : Statistics :=
  { files_processed := 0
    files_skipped := 0
    directories_visited := 1
    total_tokens := 0
    max_tokens := 0
    max_tokens_file := ""
    output_file := output_file }

/-- statistics.rs update_token_stats: add the tokens to the running total
and, when the count strictly exceeds the current maximum, replace the
maximum and its path. -/
def update_token_stats (s : Statistics) (tokens : Nat) (file_path : String) : Statistics :=
  { s with
    total_tokens := s.total_tokens + tokens
    max_tokens := if tokens > s.max_tokens then tokens else s.max_tokens
    max_tokens_file := if tokens > s.max_tokens then file_path else s.max_tokens_file }

/-! ## The sequential pipeline (src/lib.rs combine_files) -/

/-- A node visited by the ignore::Walk traversal: its path together with
what the filesystem answers for is_dir / is_file, and, for a file, the
outcome of opening and reading it as UTF-8. -/
inductive EntryKind where
  | dir
  | file (read : Except String String)
  | other
deriving Repr

structure WalkEntry where
  path : String
  kind : EntryKind
deriving Repr

/-- Path::is_relative on this platform: the path does not begin with a
separator. -/
def pathIsRelative (p : String) : Bool :=
  match p.data with
  | '/' :: _ => false
  | _ => true

/-- combine_files resolves the output path: when the input directory is
relative the output is joined onto "." (joining an absolute path replaces
the base, as PathBuf::join does). -/
def resolveOutputPath (directory output : String) : String :=
  if pathIsRelative directory then
    if pathIsRelative output then "./" ++ output else output
  else output

/-- lib.rs process_file: read the file as UTF-8 (failures are returned to
the caller), encode the whole content with encode_with_special_tokens, and
return the token count together with the content. -/
def process_file_seq (bpe : CoreBPE) (read : Except String String) :
    Except String (Nat × String) :=
  match read with
  | Except.error e => Except.error e
  | Except.ok contents => Except.ok ((bpe.encode_with_special_tokens contents).length, contents)

/-- The body of the walk loop in combine_files for one entry: directories
other than the root bump directories_visited; files other than the resolved
output path are processed, on success updating token statistics, appending
the framed record to the output and bumping files_processed, on failure
bumping files_skipped.  The state is (output buffer, statistics). -/
def combineStep (dirPath outputPath : String) (bpe : CoreBPE)
    (acc : String × Statistics) (e : WalkEntry) : String × Statistics :=
  match e.kind with
  | EntryKind.dir =>
    if e.path ≠ dirPath then
      (acc.1, { acc.2 with directories_visited := acc.2.directories_visited + 1 })
    else acc
  | EntryKind.file read =>
    if e.path ≠ outputPath then
      match process_file_seq bpe read with
      | Except.ok (token_count, file_content) =>
        let stats := acc.2
        let stats :=
          { stats with
            total_tokens := stats.total_tokens + token_count
            max_tokens := if token_count > stats.max_tokens then token_count else stats.max_tokens
            max_tokens_file :=
              if token_count > stats.max_tokens then e.path else stats.max_tokens_file }
        let buf := acc.1 ++ "--- File: " ++ e.path ++ " ---" ++ "\n" ++ file_content ++ "\n"
        (buf, { stats with files_processed := stats.files_processed + 1 })
      | Except.error _ =>
        (acc.1, { acc.2 with files_skipped := acc.2.files_skipped + 1 })
    else acc
  | EntryKind.other => acc

/-- The walk loop of combine_files: each iterator item is a Result, and an
Err aborts the whole run through the question-mark operator with the
"Failed to read directory entry" context. -/
def combineFilesLoop (dirPath outputPath : String) (bpe : CoreBPE)
    (acc : String × Statistics) : List (Except String WalkEntry) →
    Except String (String × Statistics)
  | [] => Except.ok acc
  | Except.error e :: _ => Except.error ("Failed to read directory entry: " ++ e)
  | Except.ok entry :: rest =>
    combineFilesLoop dirPath outputPath bpe (combineStep dirPath outputPath bpe acc entry) rest

/-- lib.rs combine_files over the modelled walk: resolve the output path,
start from fresh statistics (the processing_time field, wall-clock time, is
not modelled) and fold the walk loop.  The Ok value is (final output
content, statistics). -/
def combine_files (directory output : String) (bpe : CoreBPE)
    (entries : List (Except String WalkEntry)) : Except String (String × Statistics) :=
  let output_path := resolveOutputPath directory output
  combineFilesLoop directory output_path bpe ("", Statistics.new output_path) entries

/-! ## Derived views of a sequential run, used to state properties -/

/-- The (path, token count) records of the entries a sequential run
processes successfully: files, other than the resolved output path, whose
read succeeds. -/
def seqProcessedRecords (bpe : CoreBPE) (outputPath : String) :
    List (Except String WalkEntry) → List (String × Nat)
  | [] => []
  | Except.error _ :: rest => seqProcessedRecords bpe outputPath rest
  | Except.ok e :: rest =>
    match e.kind with
    | EntryKind.file (Except.ok content) =>
      if e.path = outputPath then seqProcessedRecords bpe outputPath rest
      else (e.path, (bpe.encode_with_special_tokens content).length)
        :: seqProcessedRecords bpe outputPath rest
    | _ => seqProcessedRecords bpe outputPath rest

/-- The paths of the entries a sequential run skips: files, other than the
resolved output path, whose read fails. -/
def seqSkippedPaths (outputPath : String) :
    List (Except String WalkEntry) → List String
  | [] => []
  | Except.error _ :: rest => seqSkippedPaths outputPath rest
  | Except.ok e :: rest =>
    match e.kind with
    | EntryKind.file (Except.error _) =>
      if e.path = outputPath then seqSkippedPaths outputPath rest
      else e.path :: seqSkippedPaths outputPath rest
    | _ => seqSkippedPaths outputPath rest

/-- The paths of the entries a sequential run attempts: file entries other
than the resolved output path (whether or not the read succeeds). -/
def seqAttemptedPaths (outputPath : String) :
    List (Except String WalkEntry) → List String
  | [] => []
  | Except.error _ :: rest => seqAttemptedPaths outputPath rest
  | Except.ok e :: rest =>
    match e.kind with
    | EntryKind.file _ =>
      if e.path = outputPath then seqAttemptedPaths outputPath rest
      else e.path :: seqAttemptedPaths outputPath rest
    | _ => seqAttemptedPaths outputPath rest

/-- The Result produced for one admitted file by the parallel map, as a
function of the entry alone (the shared buffer does not influence it). -/
def fileResult (bpe : CoreBPE) (e : DirEntry) :
    Except (String × String) (String × Nat × Nat) :=
  match (process_file_par bpe e "").1 with
  | Except.ok v => Except.ok (e.path, v.1, v.2)
  | Except.error msg => Except.error (e.path, msg)

/-! ## main.rs constants -/

/-- main.rs: the prefix used for default-naming the output file. -/
def DEFAULT_OUTPUT_PREFIX : String := "combiner_"

/-! ## Helper lemmas -/

lemma ite_gt_eq_max (m t : Nat) : (if t > m then t else m) = Nat.max m t := by
  by_cases h : t > m
  · simp [h, Nat.max_eq_right (Nat.le_of_lt h)]
  · simp [h, Nat.max_eq_left (Nat.le_of_not_lt h)]

lemma process_file_par_fst (bpe : CoreBPE) (e : DirEntry) (output : String) :
    (process_file_par bpe e output).1 = (process_file_par bpe e "").1 := by
  rcases e with ⟨p, f, r, m⟩
  cases r <;> cases m <;> rfl

lemma fileResult_eq (bpe : CoreBPE) (e : DirEntry) (output : String) :
    (match (process_file_par bpe e output).1 with
      | Except.ok (tokens, size) => Except.ok (e.path, tokens, size)
      | Except.error msg => Except.error (e.path, msg)) = fileResult bpe e := by
  rw [fileResult, process_file_par_fst]
  rcases h : (process_file_par bpe e "").1 with msg | ⟨tokens, size⟩ <;> rfl

lemma runFiles_results (bpe : CoreBPE) :
    ∀ (files : List DirEntry) (output : String),
      (runFiles bpe output files).2 = files.map (fileResult bpe) := by
  intro files
  induction files with
  | nil => intro output; rfl
  | cons e rest ih =>
    intro output
    simp only [runFiles, List.map_cons, ih]
    rw [fileResult_eq]

lemma except_partition_lengths (l : List (Except (String × String) (String × Nat × Nat))) :
    (l.filterMap okRecord).length + (l.filterMap errRecord).length = l.length := by
  induction l with
  | nil => rfl
  | cons h t ih => cases h <;> simp [List.filterMap_cons, okRecord, errRecord] <;> omega

/-! Reduction lemmas for the derived views and the walk step, one per
entry shape. -/

lemma seqProcessedRecords_err (bpe : CoreBPE) (out e : String)
    (rest : List (Except String WalkEntry)) :
    seqProcessedRecords bpe out (Except.error e :: rest) = seqProcessedRecords bpe out rest := rfl

lemma seqProcessedRecords_dir (bpe : CoreBPE) (out p : String)
    (rest : List (Except String WalkEntry)) :
    seqProcessedRecords bpe out (Except.ok { path := p, kind := EntryKind.dir } :: rest)
      = seqProcessedRecords bpe out rest := rfl

lemma seqProcessedRecords_other (bpe : CoreBPE) (out p : String)
    (rest : List (Except String WalkEntry)) :
    seqProcessedRecords bpe out (Except.ok { path := p, kind := EntryKind.other } :: rest)
      = seqProcessedRecords bpe out rest := rfl

lemma seqProcessedRecords_file_ok (bpe : CoreBPE) (out p content : String)
    (rest : List (Except String WalkEntry)) :
    seqProcessedRecords bpe out
        (Except.ok { path := p, kind := EntryKind.file (Except.ok content) } :: rest)
      = if p = out then seqProcessedRecords bpe out rest
        else (p, (bpe.encode_with_special_tokens content).length)
          :: seqProcessedRecords bpe out rest := rfl

lemma seqProcessedRecords_file_err (bpe : CoreBPE) (out p msg : String)
    (rest : List (Except String WalkEntry)) :
    seqProcessedRecords bpe out
        (Except.ok { path := p, kind := EntryKind.file (Except.error msg) } :: rest)
      = seqProcessedRecords bpe out rest := rfl

lemma seqSkippedPaths_err (out e : String) (rest : List (Except String WalkEntry)) :
    seqSkippedPaths out (Except.error e :: rest) = seqSkippedPaths out rest := rfl

lemma seqSkippedPaths_dir (out p : String) (rest : List (Except String WalkEntry)) :
    seqSkippedPaths out (Except.ok { path := p, kind := EntryKind.dir } :: rest)
      = seqSkippedPaths out rest := rfl

lemma seqSkippedPaths_other (out p : String) (rest : List (Except String WalkEntry)) :
    seqSkippedPaths out (Except.ok { path := p, kind := EntryKind.other } :: rest)
      = seqSkippedPaths out rest := rfl

lemma seqSkippedPaths_file_ok (out p content : String)
    (rest : List (Except String WalkEntry)) :
    seqSkippedPaths out
        (Except.ok { path := p, kind := EntryKind.file (Except.ok content) } :: rest)
      = seqSkippedPaths out rest := rfl

lemma seqSkippedPaths_file_err (out p msg : String)
    (rest : List (Except String WalkEntry)) :
    seqSkippedPaths out
        (Except.ok { path := p, kind := EntryKind.file (Except.error msg) } :: rest)
      = if p = out then seqSkippedPaths out rest else p :: seqSkippedPaths out rest := rfl

lemma seqAttemptedPaths_err (out e : String) (rest : List (Except String WalkEntry)) :
    seqAttemptedPaths out (Except.error e :: rest) = seqAttemptedPaths out rest := rfl

lemma seqAttemptedPaths_dir (out p : String) (rest : List (Except String WalkEntry)) :
    seqAttemptedPaths out (Except.ok { path := p, kind := EntryKind.dir } :: rest)
      = seqAttemptedPaths out rest := rfl

lemma seqAttemptedPaths_other (out p : String) (rest : List (Except String WalkEntry)) :
    seqAttemptedPaths out (Except.ok { path := p, kind := EntryKind.other } :: rest)
      = seqAttemptedPaths out rest := rfl

lemma seqAttemptedPaths_file (out p : String) (r : Except String String)
    (rest : List (Except String WalkEntry)) :
    seqAttemptedPaths out (Except.ok { path := p, kind := EntryKind.file r } :: rest)
      = if p = out then seqAttemptedPaths out rest else p :: seqAttemptedPaths out rest := rfl

lemma combineStep_dir (d o : String) (bpe : CoreBPE) (acc : String × Statistics) (p : String) :
    combineStep d o bpe acc { path := p, kind := EntryKind.dir }
      = if p ≠ d then
          (acc.1, { acc.2 with directories_visited := acc.2.directories_visited + 1 })
        else acc := rfl

lemma combineStep_other (d o : String) (bpe : CoreBPE) (acc : String × Statistics) (p : String) :
    combineStep d o bpe acc { path := p, kind := EntryKind.other } = acc := rfl

lemma combineStep_file_err (d o : String) (bpe : CoreBPE) (acc : String × Statistics)
    (p msg : String) :
    combineStep d o bpe acc { path := p, kind := EntryKind.file (Except.error msg) }
      = if p ≠ o then (acc.1, { acc.2 with files_skipped := acc.2.files_skipped + 1 })
        else acc := rfl

lemma combineStep_file_ok (d o : String) (bpe : CoreBPE) (acc : String × Statistics)
    (p content : String) :
    combineStep d o bpe acc { path := p, kind := EntryKind.file (Except.ok content) }
      = if p ≠ o then
          (acc.1 ++ "--- File: " ++ p ++ " ---" ++ "\n" ++ content ++ "\n",
           { acc.2 with
             files_processed := acc.2.files_processed + 1
             total_tokens :=
               acc.2.total_tokens + (bpe.encode_with_special_tokens content).length
             max_tokens :=
               if (bpe.encode_with_special_tokens content).length > acc.2.max_tokens then
                 (bpe.encode_with_special_tokens content).length
               else acc.2.max_tokens
             max_tokens_file :=
               if (bpe.encode_with_special_tokens content).length > acc.2.max_tokens then p
               else acc.2.max_tokens_file })
        else acc := rfl

lemma seq_counts_split (outputPath : String) (bpe : CoreBPE) :
    ∀ entries : List (Except String WalkEntry),
      (seqProcessedRecords bpe outputPath entries).length +
        (seqSkippedPaths outputPath entries).length
        = (seqAttemptedPaths outputPath entries).length := by
  intro entries
  induction entries with
  | nil => rfl
  | cons head tail ih =>
    cases head with
    | error e =>
      rw [seqProcessedRecords_err, seqSkippedPaths_err, seqAttemptedPaths_err]
      exact ih
    | ok entry =>
      rcases entry with ⟨p, k⟩
      cases k with
      | dir =>
        rw [seqProcessedRecords_dir, seqSkippedPaths_dir, seqAttemptedPaths_dir]
        exact ih
      | other =>
        rw [seqProcessedRecords_other, seqSkippedPaths_other, seqAttemptedPaths_other]
        exact ih
      | file r =>
        cases r with
        | ok content =>
          rw [seqProcessedRecords_file_ok, seqSkippedPaths_file_ok, seqAttemptedPaths_file]
          by_cases hp : p = outputPath <;> simp [hp] <;> omega
        | error msg =>
          rw [seqProcessedRecords_file_err, seqSkippedPaths_file_err, seqAttemptedPaths_file]
          by_cases hp : p = outputPath <;> simp [hp] <;> omega

/-- The single walk-loop invariant of the sequential pipeline, proved once
and instantiated by the counting, token-sum and maximum theorems. -/
lemma combineFilesLoop_ok_spec (dirPath outputPath : String) (bpe : CoreBPE) :
    ∀ (entries : List (Except String WalkEntry)) (acc res : String × Statistics),
      combineFilesLoop dirPath outputPath bpe acc entries = Except.ok res →
      res.2.files_processed
          = acc.2.files_processed + (seqProcessedRecords bpe outputPath entries).length ∧
        res.2.files_skipped
          = acc.2.files_skipped + (seqSkippedPaths outputPath entries).length ∧
        res.2.total_tokens
          = acc.2.total_tokens + ((seqProcessedRecords bpe outputPath entries).map Prod.snd).sum ∧
        res.2.max_tokens
          = ((seqProcessedRecords bpe outputPath entries).map Prod.snd).foldl Nat.max
              acc.2.max_tokens ∧
        ((res.2.max_tokens = acc.2.max_tokens ∧ res.2.max_tokens_file = acc.2.max_tokens_file) ∨
          ∃ r ∈ seqProcessedRecords bpe outputPath entries,
            res.2.max_tokens_file = r.1 ∧ res.2.max_tokens = r.2) := by
  intro entries
  induction entries with
  | nil =>
    intro acc res h
    simp only [combineFilesLoop, Except.ok.injEq] at h
    subst h
    exact ⟨rfl, rfl, rfl, rfl, Or.inl ⟨rfl, rfl⟩⟩
  | cons head tail ih =>
    intro acc res h
    cases head with
    | error e => simp [combineFilesLoop] at h
    | ok entry =>
      simp only [combineFilesLoop] at h
      rcases entry with ⟨p, k⟩
      cases k with
      | dir =>
        have step := ih _ _ h
        rw [combineStep_dir] at step
        rw [seqProcessedRecords_dir, seqSkippedPaths_dir]
        by_cases hp : p = dirPath
        · simpa [hp] using step
        · simpa [hp] using step
      | other =>
        have step := ih _ _ h
        rw [combineStep_other] at step
        rw [seqProcessedRecords_other, seqSkippedPaths_other]
        exact step
      | file r =>
        cases r with
        | error msg =>
          have step := ih _ _ h
          rw [combineStep_file_err] at step
          rw [seqProcessedRecords_file_err, seqSkippedPaths_file_err]
          by_cases hp : p = outputPath
          · simpa [hp] using step
          · simp only [hp, ne_eq, not_false_eq_true, if_true] at step
            obtain ⟨s1, s2, s3, s4, s5⟩ := step
            simp only [hp, if_false, List.length_cons]
            refine ⟨by simpa using s1, by omega, by simpa using s3, by simpa using s4, ?_⟩
            simpa using s5
        | ok content =>
          have step := ih _ _ h
          rw [combineStep_file_ok] at step
          rw [seqProcessedRecords_file_ok, seqSkippedPaths_file_ok]
          by_cases hp : p = outputPath
          · simpa [hp] using step
          · simp only [hp, ne_eq, not_false_eq_true, if_true] at step
            obtain ⟨s1, s2, s3, s4, s5⟩ := step
            simp only [hp, if_false, List.length_cons, List.map_cons, List.sum_cons,
              List.foldl_cons]
            refine ⟨by omega, by simpa using s2, by omega, ?_, ?_⟩
            · rw [s4, ite_gt_eq_max]
            · by_cases hcmp : (bpe.encode_with_special_tokens content).length > acc.2.max_tokens
              · rcases s5 with ⟨hm, hf⟩ | ⟨rr, hrr, hf, hm⟩
                · right
                  refine ⟨(p, (bpe.encode_with_special_tokens content).length),
                    List.mem_cons_self _ _, ?_, ?_⟩
                  · simp [hcmp] at hf
                    simpa using hf
                  · simp [hcmp] at hm
                    simpa using hm
                · exact Or.inr ⟨rr, List.mem_cons_of_mem _ hrr, hf, hm⟩
              · rcases s5 with ⟨hm, hf⟩ | ⟨rr, hrr, hf, hm⟩
                · left
                  constructor
                  · simp [hcmp] at hm
                    simpa using hm
                  · simp [hcmp] at hf
                    simpa using hf
                · exact Or.inr ⟨rr, List.mem_cons_of_mem _ hrr, hf, hm⟩

lemma combineFilesLoop_error (dirPath outputPath : String) (bpe : CoreBPE) :
    ∀ (xs : List (Except String WalkEntry)) (e : String)
      (ys : List (Except String WalkEntry)) (acc : String × Statistics),
      ∃ msg, combineFilesLoop dirPath outputPath bpe acc (xs ++ Except.error e :: ys)
        = Except.error msg := by
  intro xs
  induction xs with
  | nil => intro e ys acc; exact ⟨_, rfl⟩
  | cons head tail ih =>
    intro e ys acc
    cases head with
    | error e2 => exact ⟨_, rfl⟩
    | ok entry => simpa [combineFilesLoop] using ih e ys (combineStep dirPath outputPath bpe acc entry)

/-! ## Claims -/

/-- Claim C3: for every file and every ignore-pattern and include-pattern
list, a file matching at least one ignore pattern is excluded from
combination even when it also matches an include pattern: should_ignore
takes precedence in the admission conjunction of process_files. -/
theorem ignore_patterns_take_precedence (e : DirEntry) (pats incl : List String)
    (h : should_ignore e.path pats = true) :
    admission pats incl e = false := by
  simp [admission, h]

theorem ignore_patterns_take_precedence_witness :
    should_ignore "a.log" ["*.log"] = true ∧
    admission ["*.log"] ["*.log"]
      { path := "a.log", is_file := true, read := Except.ok "log line",
        metadata_len := Except.ok 8 } = false :=
  ⟨by decide, ignore_patterns_take_precedence _ _ _ (by decide)⟩

/-- Claim C8: every tokenizer name that is not one of the five recognized
scheme names makes get_bpe return the designated default scheme
(cl100k_base); the unknown name is not an error path. -/
theorem get_bpe_unknown_name_defaults (tokenizer : String)
    (h : tokenizer ∉ recognizedTokenizers) :
    get_bpe tokenizer = TokenizerScheme.cl100k_base := by
  simp only [recognizedTokenizers, List.mem_cons, List.not_mem_nil, or_false, not_or] at h
  obtain ⟨h1, h2, h3, h4, h5⟩ := h
  simp [get_bpe, h1, h2, h3, h4, h5]

theorem get_bpe_unknown_name_defaults_witness :
    "bogus_scheme" ∉ recognizedTokenizers ∧
    get_bpe "bogus_scheme" = TokenizerScheme.cl100k_base :=
  ⟨by decide, get_bpe_unknown_name_defaults "bogus_scheme" (by decide)⟩

/-- Claim C9 (amended): should_ignore returns true iff some ignore pattern,
compiled as a glob, matches the full path string; patterns that fail to
compile are treated as non-matching, and there is no separate check of the
filename or of the reserved output-file prefix. -/
theorem should_ignore_iff_glob_match (path : String) (pats : List String) :
    should_ignore path pats = true ↔ ∃ p ∈ pats, pattern_matches p path = true := by
  simp [should_ignore, List.any_eq_true]

/-- Claim C9, counterexample to the claim as stated: a path whose filename
begins with the reserved output-file prefix is not ignored when no pattern
matches it, so the prefix clause of the claim does not hold of
should_ignore. -/
theorem should_ignore_no_prefix_check :
    should_ignore "combiner_20240101_093000.txt" [] = false ∧
    List.isPrefixOf DEFAULT_OUTPUT_PREFIX.data "combiner_20240101_093000.txt".data = true :=
  ⟨rfl, by decide⟩

/-- Claim C2 (amended): in the parallel pipeline a traversal error on an
individual entry is dropped by filter_map(Result::ok), so the run is
exactly the run without that entry; in the sequential pipeline the
question-mark operator makes any traversal error abort the whole run. -/
theorem traversal_error_handling :
    (∀ (bpe : CoreBPE) (pats incl : List String)
        (xs : List (Except String DirEntry)) (e : String)
        (ys : List (Except String DirEntry)),
        process_files bpe pats incl (xs ++ Except.error e :: ys)
          = process_files bpe pats incl (xs ++ ys)) ∧
    (∀ (directory output : String) (bpe : CoreBPE)
        (xs : List (Except String WalkEntry)) (e : String)
        (ys : List (Except String WalkEntry)),
        ∃ msg, combine_files directory output bpe (xs ++ Except.error e :: ys)
          = Except.error msg) := by
  constructor
  · intro bpe pats incl xs e ys
    simp [process_files, admittedFiles, List.filterMap_append, List.filterMap_cons, Except.toOption]
  · intro directory output bpe xs e ys
    exact combineFilesLoop_error directory (resolveOutputPath directory output) bpe xs e ys _

/-- Claim C2, counterexample to the claim as stated: in the sequential
pipeline a traversal error does not merely skip the entry, it aborts the
whole run with an error. -/
theorem traversal_error_aborts_sequential_run :
    combine_files "." "out.txt" charTokens
        [Except.error "permission denied",
         Except.ok { path := "./a.txt", kind := EntryKind.file (Except.ok "A") }]
      = Except.error "Failed to read directory entry: permission denied" := rfl

/-- Claim C4: in the parallel pipeline files_processed plus the number of
skipped files equals the number of admitted (attempted) files, and in the
sequential pipeline files_processed plus files_skipped equals the number of
file entries other than the resolved output path; admission-rejected
entries appear in neither counter. -/
theorem processed_plus_skipped_counts :
    (∀ (bpe : CoreBPE) (pats incl : List String) (walk : List (Except String DirEntry)),
        (process_files bpe pats incl walk).1.files_processed
            + (process_files bpe pats incl walk).1.skipped_files.length
          = (admittedFiles pats incl walk).length) ∧
    (∀ (directory output : String) (bpe : CoreBPE)
        (entries : List (Except String WalkEntry)) (res : String × Statistics),
        combine_files directory output bpe entries = Except.ok res →
        res.2.files_processed + res.2.files_skipped
          = (seqAttemptedPaths (resolveOutputPath directory output) entries).length) := by
  constructor
  · intro bpe pats incl walk
    have h := except_partition_lengths
      ((runFiles bpe "" (admittedFiles pats incl walk)).2)
    have hlen : (runFiles bpe "" (admittedFiles pats incl walk)).2.length
        = (admittedFiles pats incl walk).length := by
      rw [runFiles_results]; exact List.length_map _ _
    rw [hlen] at h
    exact h
  · intro directory output bpe entries res h
    have step := combineFilesLoop_ok_spec directory (resolveOutputPath directory output) bpe
      entries ("", Statistics.new (resolveOutputPath directory output)) res h
    obtain ⟨s1, s2, -, -, -⟩ := step
    have := seq_counts_split (resolveOutputPath directory output) bpe entries
    simp [Statistics.new] at s1 s2
    omega

theorem processed_plus_skipped_counts_witness :
    ∃ res, combine_files "." "output.txt" charTokens
        [Except.ok { path := ".", kind := EntryKind.dir },
         Except.ok { path := "./file1.txt", kind := EntryKind.file (Except.ok "A") },
         Except.ok { path := "./bad.bin", kind := EntryKind.file (Except.error "not UTF-8") },
         Except.ok { path := "./output.txt", kind := EntryKind.file (Except.ok "self") }]
        = Except.ok res ∧
      res.2.files_processed + res.2.files_skipped = 2 :=
  ⟨_, rfl, by
    have h := processed_plus_skipped_counts.2 "." "output.txt" charTokens
      [Except.ok { path := ".", kind := EntryKind.dir },
       Except.ok { path := "./file1.txt", kind := EntryKind.file (Except.ok "A") },
       Except.ok { path := "./bad.bin", kind := EntryKind.file (Except.error "not UTF-8") },
       Except.ok { path := "./output.txt", kind := EntryKind.file (Except.ok "self") }]
      _ rfl
    exact h.trans rfl⟩

/-- Claim C5: total_tokens equals the sum of the per-file token counts over
exactly the successfully processed files, in both pipelines, and the value
is invariant under permuting the order in which the admitted files are
processed. -/
theorem total_tokens_sum_and_order :
    (∀ (bpe : CoreBPE) (pats incl : List String) (walk : List (Except String DirEntry)),
        (process_files bpe pats incl walk).1.total_tokens
          = ((process_files bpe pats incl walk).1.file_stats.map fun v => v.2.1).sum) ∧
    (∀ (directory output : String) (bpe : CoreBPE)
        (entries : List (Except String WalkEntry)) (res : String × Statistics),
        combine_files directory output bpe entries = Except.ok res →
        res.2.total_tokens
          = ((seqProcessedRecords bpe (resolveOutputPath directory output) entries).map
              Prod.snd).sum) ∧
    (∀ (bpe : CoreBPE) (buf1 buf2 : String) (files1 files2 : List DirEntry),
        files1.Perm files2 →
        (((runFiles bpe buf1 files1).2.filterMap okRecord).map fun v => v.2.1).sum
          = (((runFiles bpe buf2 files2).2.filterMap okRecord).map fun v => v.2.1).sum) := by
  refine ⟨fun bpe pats incl walk => rfl, ?_, ?_⟩
  · intro directory output bpe entries res h
    have step := combineFilesLoop_ok_spec directory (resolveOutputPath directory output) bpe
      entries ("", Statistics.new (resolveOutputPath directory output)) res h
    obtain ⟨-, -, s3, -, -⟩ := step
    simpa [Statistics.new] using s3
  · intro bpe buf1 buf2 files1 files2 hperm
    rw [runFiles_results, runFiles_results]
    exact List.Perm.sum_eq (List.Perm.map _ (List.Perm.filterMap _ (List.Perm.map _ hperm)))

theorem total_tokens_sum_and_order_witness :
    ∃ res, combine_files "." "out.txt" charTokens
        [Except.ok { path := "./a.txt", kind := EntryKind.file (Except.ok "AB") },
         Except.ok { path := "./b.txt", kind := EntryKind.file (Except.ok "CDE") }]
        = Except.ok res ∧
      res.2.total_tokens = 5 ∧
      (((runFiles charTokens ""
          [{ path := "x.txt", is_file := true, read := Except.ok "qq",
             metadata_len := Except.ok 2 },
           { path := "y.txt", is_file := true, read := Except.ok "r",
             metadata_len := Except.ok 1 }]).2.filterMap okRecord).map fun v => v.2.1).sum
        = (((runFiles charTokens ""
          [{ path := "y.txt", is_file := true, read := Except.ok "r",
             metadata_len := Except.ok 1 },
           { path := "x.txt", is_file := true, read := Except.ok "qq",
             metadata_len := Except.ok 2 }]).2.filterMap okRecord).map fun v => v.2.1).sum := by
  refine ⟨_, rfl, ?_, ?_⟩
  · have h := total_tokens_sum_and_order.2.1 "." "out.txt" charTokens
      [Except.ok { path := "./a.txt", kind := EntryKind.file (Except.ok "AB") },
       Except.ok { path := "./b.txt", kind := EntryKind.file (Except.ok "CDE") }] _ rfl
    exact h.trans rfl
  · exact total_tokens_sum_and_order.2.2 charTokens "" ""
      [{ path := "x.txt", is_file := true, read := Except.ok "qq", metadata_len := Except.ok 2 },
       { path := "y.txt", is_file := true, read := Except.ok "r", metadata_len := Except.ok 1 }]
      [{ path := "y.txt", is_file := true, read := Except.ok "r", metadata_len := Except.ok 1 },
       { path := "x.txt", is_file := true, read := Except.ok "qq", metadata_len := Except.ok 2 }]
      (List.Perm.swap _ _ _)

/-- Claim C7 (amended): update_token_stats adds the tokens to the running
total and replaces the (max, path) pair exactly when the new count strictly
exceeds the current maximum; consequently, in a sequential run the recorded
max_tokens is the maximum token count over the processed files, and
whenever it is positive the recorded pair names an actual processed file
with that count.  (When every processed file has zero tokens the pair keeps
its initial (0, empty-string) value.) -/
theorem update_token_stats_and_max_invariant :
    (∀ (s : Statistics) (tokens : Nat) (p : String),
        (update_token_stats s tokens p).total_tokens = s.total_tokens + tokens ∧
        (tokens > s.max_tokens →
          (update_token_stats s tokens p).max_tokens = tokens ∧
          (update_token_stats s tokens p).max_tokens_file = p) ∧
        (¬ tokens > s.max_tokens →
          (update_token_stats s tokens p).max_tokens = s.max_tokens ∧
          (update_token_stats s tokens p).max_tokens_file = s.max_tokens_file)) ∧
    (∀ (directory output : String) (bpe : CoreBPE)
        (entries : List (Except String WalkEntry)) (res : String × Statistics),
        combine_files directory output bpe entries = Except.ok res →
        res.2.max_tokens
            = ((seqProcessedRecords bpe (resolveOutputPath directory output) entries).map
                Prod.snd).foldl Nat.max 0 ∧
          (0 < res.2.max_tokens →
            ∃ r ∈ seqProcessedRecords bpe (resolveOutputPath directory output) entries,
              res.2.max_tokens_file = r.1 ∧ res.2.max_tokens = r.2)) := by
  constructor
  · intro s tokens p
    refine ⟨rfl, fun h => ?_, fun h => ?_⟩
    · simp [update_token_stats, h]
    · simp [update_token_stats, h]
  · intro directory output bpe entries res h
    have step := combineFilesLoop_ok_spec directory (resolveOutputPath directory output) bpe
      entries ("", Statistics.new (resolveOutputPath directory output)) res h
    obtain ⟨-, -, -, s4, s5⟩ := step
    constructor
    · simpa [Statistics.new] using s4
    · intro hpos
      rcases s5 with ⟨hm, -⟩ | hx
      · simp [Statistics.new] at hm
        omega
      · exact hx

theorem update_token_stats_and_max_invariant_witness :
    (update_token_stats (Statistics.new "o") 3 "a.txt").max_tokens = 3 ∧
    (update_token_stats (Statistics.new "o") 3 "a.txt").max_tokens_file = "a.txt" ∧
    ∃ res, combine_files "." "out.txt" charTokens
        [Except.ok { path := "./a.txt", kind := EntryKind.file (Except.ok "AB") }]
        = Except.ok res ∧
      ∃ r ∈ seqProcessedRecords charTokens "./out.txt"
          [Except.ok { path := "./a.txt", kind := EntryKind.file (Except.ok "AB") }],
        res.2.max_tokens_file = r.1 ∧ res.2.max_tokens = r.2 := by
  have h1 := (update_token_stats_and_max_invariant.1 (Statistics.new "o") 3 "a.txt").2.1
    (by decide)
  have h2 := (update_token_stats_and_max_invariant.2 "." "out.txt" charTokens
    [Except.ok { path := "./a.txt", kind := EntryKind.file (Except.ok "AB") }] _ rfl).2
    (by decide)
  exact ⟨h1.1, h1.2, _, rfl, h2⟩

/-- Claim C7, counterexample to the claim as stated: a run that processes
exactly one file whose content encodes to zero tokens leaves max_tokens_file
at its initial empty value, which is not the path of any processed file, so
the recorded pair does not refer to an actual processed file even though at
least one file was processed. -/
theorem max_tokens_file_empty_on_zero_token_run :
    combine_files "." "out.txt" charTokens
        [Except.ok { path := "./a.txt", kind := EntryKind.file (Except.ok "") }]
      = Except.ok ("--- File: ./a.txt ---\n\n",
          { files_processed := 1, files_skipped := 0, directories_visited := 1,
            total_tokens := 0, max_tokens := 0, max_tokens_file := "",
            output_file := "./out.txt" }) ∧
    seqProcessedRecords charTokens "./out.txt"
        [Except.ok { path := "./a.txt", kind := EntryKind.file (Except.ok "") }]
      = [("./a.txt", 0)] ∧
    ("" : String) ≠ "./a.txt" :=
  ⟨rfl, rfl, by decide⟩

/-- Claim C6 (amended): the sequential process_file tokenizes the full text
with the encode-including-special-tokens mode and reports the length of
that sequence; the parallel process_file tokenizes with the ordinary-only
mode and reports the length of that sequence. -/
theorem token_count_encoding_modes :
    (∀ (bpe : CoreBPE) (content : String),
        process_file_seq bpe (Except.ok content)
          = Except.ok ((bpe.encode_with_special_tokens content).length, content)) ∧
    (∀ (bpe : CoreBPE) (e : DirEntry) (output content : String) (n : Nat),
        e.read = Except.ok content → e.metadata_len = Except.ok n →
        (process_file_par bpe e output).1
          = Except.ok ((bpe.encode_ordinary content).length, n)) := by
  constructor
  · intro bpe content; rfl
  · intro bpe e output content n hr hm
    rcases e with ⟨p, f, r, m⟩
    simp only at hr hm
    subst hr; subst hm
    rfl

theorem token_count_encoding_modes_witness :
    process_file_seq charTokens (Except.ok "hi") = Except.ok (2, "hi") ∧
    (process_file_par charTokens
        { path := "f.txt", is_file := true, read := Except.ok "hi",
          metadata_len := Except.ok 2 } "").1 = Except.ok (2, 2) :=
  ⟨token_count_encoding_modes.1 charTokens "hi",
   token_count_encoding_modes.2 charTokens
     { path := "f.txt", is_file := true, read := Except.ok "hi", metadata_len := Except.ok 2 }
     "" "hi" 2 rfl rfl⟩

/-- Claim C6, counterexample to the claim as stated: for an encoder whose
two modes differ, the parallel File Processor reports the length of the
ordinary-only encoding, not the length of the encoding that includes
special tokens. -/
theorem parallel_processor_not_special_mode :
    (process_file_par
        { encode_ordinary := fun _ => [0],
          encode_with_special_tokens := fun _ => [0, 0] }
        { path := "f.txt", is_file := true, read := Except.ok "hi",
          metadata_len := Except.ok 2 } "").1 = Except.ok (1, 2) ∧
    ((CoreBPE.mk (fun _ => [0]) (fun _ => [0, 0])).encode_with_special_tokens "hi").length = 2 ∧
    (1 : Nat) ≠ 2 :=
  ⟨rfl, rfl, by decide⟩

/-- Claim C10: the parallel process_file writes the header line and the
80-dash separator line to the shared output before attempting to read the
file, so on a read failure the result is the per-file error and the output
buffer has gained exactly the header and separator, with no content and no
closing separator. -/
theorem header_written_before_read :
    (∀ (bpe : CoreBPE) (e : DirEntry) (output : String),
        ∃ rest, (process_file_par bpe e output).2
          = output ++ headerLine e.path ++ dashLine ++ rest) ∧
    (∀ (bpe : CoreBPE) (e : DirEntry) (output msg : String),
        e.read = Except.error msg →
        (process_file_par bpe e output).1
            = Except.error ("Failed to process file: " ++ e.path) ∧
          (process_file_par bpe e output).2 = output ++ headerLine e.path ++ dashLine) := by
  constructor
  · intro bpe e output
    rcases e with ⟨p, f, r, m⟩
    cases r with
    | error msg => exact ⟨"", by simp [process_file_par]⟩
    | ok content =>
      cases m with
      | error msg =>
        exact ⟨content ++ dashLine, by simp [process_file_par, String.append_assoc]⟩
      | ok n =>
        exact ⟨content ++ dashLine, by simp [process_file_par, String.append_assoc]⟩
  · intro bpe e output msg hr
    rcases e with ⟨p, f, r, m⟩
    simp only at hr
    subst hr
    exact ⟨rfl, rfl⟩

theorem header_written_before_read_witness :
    (process_file_par charTokens
        { path := "f.txt", is_file := true, read := Except.error "boom",
          metadata_len := Except.ok 0 } "abc").1
      = Except.error "Failed to process file: f.txt" ∧
    (process_file_par charTokens
        { path := "f.txt", is_file := true, read := Except.error "boom",
          metadata_len := Except.ok 0 } "abc").2
      = "abc" ++ headerLine "f.txt" ++ dashLine :=
  header_written_before_read.2 charTokens
    { path := "f.txt", is_file := true, read := Except.error "boom",
      metadata_len := Except.ok 0 } "abc" "boom" rfl

/-- Claim C1 (code bug): the parallel pipeline excludes the output file
only by pushing its literal path string into the glob ignore patterns; a
resolved output path containing glob metacharacters does not match itself
as a glob, so a walked file whose path equals the resolved output path is
admitted, read, tokenized, counted and emitted as a record. -/
theorem output_file_self_inclusion_at_failing_input :
    should_ignore "dir/out[1].txt" ["target", "dir/out[1].txt"] = false ∧
    (process_files charTokens ["target", "dir/out[1].txt"] []
        [Except.ok { path := "dir/out[1].txt", is_file := true,
                     read := Except.ok "abcd", metadata_len := Except.ok 4 }]).1.files_processed
      = 1 ∧
    (process_files charTokens ["target", "dir/out[1].txt"] []
        [Except.ok { path := "dir/out[1].txt", is_file := true,
                     read := Except.ok "abcd", metadata_len := Except.ok 4 }]).1.file_stats
      = [("dir/out[1].txt", 4, 4)] :=
  ⟨rfl, rfl, rfl⟩

end Combiner
